import Mathlib

/-!
Shallow embedding of the rust-mosaic block-observation core
(src/ethereum/mod.rs and src/observer/mod.rs) and proofs of its
specified properties.

Machine words (H160, H256, H2048, U128, U256) are modelled as natural
numbers; the only place a width matters is the narrowing of a block
number from 128 to 64 bits, which is made explicit as a remainder
modulo 2 ^ 64.  Byte blobs are lists of naturals.  Asynchronous
streams are modelled as lists of the items they yield, processed in
order; node interactions are modelled by explicit oracles together
with a trace of the calls made.
-/

set_option autoImplicit false

namespace Mosaic

abbrev H160 := Nat
abbrev H256 := Nat
abbrev H2048 := Nat
abbrev U128 := Nat
abbrev U256 := Nat
abbrev Bytes := List Nat
abbrev Signature := Nat

/-- Error kinds used by the ethereum module (error::ErrorKind): the two
constructors exercised by the code under consideration. -/
inductive ErrorKind where
  | NodeError
  | InvalidBlock
  deriving DecidableEq

/-- An error value as built by Error::new(kind, message). -/
structure Error where
  kind : ErrorKind
  message : String
  deriving DecidableEq

/-- The domain Block, with fields exactly as constructed by into_block in
src/ethereum/mod.rs.  The Event payload type is owned by the event-handler
collaborator and is opaque to this core, hence a type parameter. -/
structure Block (E : Type) where
  hash : H256
  parent_hash : H256
  uncles_hash : H256
  author : H160
  state_root : H256
  transactions_root : H256
  receipts_root : H256
  logs_bloom : H2048
  total_difficulty : U256
  number : U128
  gas_limit : U256
  gas_used : U256
  timestamp : U256
  extra_data : Bytes
  mix_data : H256
  nonce : U256
  events : List E
  deriving DecidableEq

/-- A node-native (web3) block record.  hash and number are optional; the
remaining fields are those read by into_block, plus the record's own
uncles_hash, receipts_root, mix_hash and nonce fields, which into_block
never reads. -/
structure Web3Block where
  hash : Option H256
  parent_hash : H256
  uncles_hash : H256
  author : H160
  state_root : H256
  transactions_root : H256
  receipts_root : H256
  number : Option U128
  gas_used : U256
  gas_limit : U256
  extra_data : Bytes
  logs_bloom : H2048
  timestamp : U256
  difficulty : U256
  total_difficulty : U256
  mix_hash : H256
  nonce : U256
  deriving DecidableEq

/-- into_block from src/ethereum/mod.rs: tries to convert a web3 block into
a Block, failing when a mandatory field (hash, then number) is absent.
In the source the missing-hash check is reached first, matching the field
order of the struct literal. -/
def into_block {E : Type} (self : Web3Block) : Except Error (Block E) :=
  match self.hash with
  | none => .error ⟨ErrorKind.InvalidBlock, "Block has no hash"⟩
  | some hash =>
    match self.number with
    | none => .error ⟨ErrorKind.InvalidBlock, "Block has no number"⟩
    | some number =>
      .ok
        { hash := hash
          parent_hash := self.parent_hash
          uncles_hash := self.parent_hash
          author := self.author
          state_root := self.state_root
          transactions_root := self.transactions_root
          receipts_root := self.transactions_root
          logs_bloom := self.logs_bloom
          total_difficulty := self.total_difficulty
          number := number
          gas_limit := self.gas_limit
          gas_used := self.gas_used
          timestamp := self.timestamp
          extra_data := self.extra_data
          mix_data := self.transactions_root
          nonce := self.difficulty
          events := [] }

/-- A concrete raw block with every field present and all raw fields
pairwise distinct, used to evaluate the theorems on concrete input. -/
def wb_full : Web3Block :=
  { hash := some 1
    parent_hash := 2
    uncles_hash := 3
    author := 4
    state_root := 5
    transactions_root := 6
    receipts_root := 7
    number := some 8
    gas_used := 9
    gas_limit := 10
    extra_data := [20, 21]
    logs_bloom := 11
    timestamp := 12
    difficulty := 13
    total_difficulty := 14
    mix_hash := 15
    nonce := 16 }

/-- A concrete raw block whose hash field is absent. -/
def wb_no_hash : Web3Block :=
  { wb_full with hash := none }

/-- A concrete raw block whose number field is absent. -/
def wb_no_number : Web3Block :=
  { wb_full with number := none }

/-- The Block obtained by converting wb_full. -/
def block_full : Block Nat :=
  { hash := 1
    parent_hash := 2
    uncles_hash := 2
    author := 4
    state_root := 5
    transactions_root := 6
    receipts_root := 6
    logs_bloom := 11
    total_difficulty := 14
    number := 8
    gas_limit := 10
    gas_used := 9
    timestamp := 12
    extra_data := [20, 21]
    mix_data := 6
    nonce := 13
    events := [] }

/-- C1: into_block fails exactly when the hash field or the number field is
absent — so no other field is validated — and the error identifies the
missing field (the spec's MissingField names): kind InvalidBlock with
message "Block has no hash" when hash is absent, otherwise "Block has no
number" when number is absent.  Being an error, no partial Block is
produced. -/
theorem into_block_missing_field {E : Type} (wb : Web3Block) (e : Error) :
    into_block (E := E) wb = .error e ↔
      ((wb.hash = none ∨ wb.number = none) ∧
        e = ⟨ErrorKind.InvalidBlock,
             if wb.hash = none then "Block has no hash" else "Block has no number"⟩) := by
  cases hh : wb.hash with
  | none => simp [into_block, hh, eq_comm]
  | some h =>
    cases hn : wb.number with
    | none => simp [into_block, hh, hn, eq_comm]
    | some n => simp [into_block, hh, hn]

theorem into_block_missing_field_witness :
    into_block (E := Nat) wb_no_hash =
      .error ⟨ErrorKind.InvalidBlock, "Block has no hash"⟩ :=
  (into_block_missing_field wb_no_hash
    ⟨ErrorKind.InvalidBlock, "Block has no hash"⟩).mpr (by constructor <;> decide)

/-- C2: whenever both the hash field and the number field are present,
into_block succeeds, and the resulting Block's events sequence is empty. -/
theorem into_block_success {E : Type} (wb : Web3Block) (h : H256) (n : U128)
    (hh : wb.hash = some h) (hn : wb.number = some n) :
    (into_block (E := E) wb).map Block.events = .ok ([] : List E) := by
  simp [into_block, hh, hn, Except.map]

theorem into_block_success_witness :
    (into_block (E := Nat) wb_full).map Block.events = .ok ([] : List Nat) :=
  into_block_success wb_full 1 8 rfl rfl

/-- The conversion stage of stream_blocks: an optionally-found web3 block is
converted into a Block; an absent block or a conversion failure is mapped to
an error item of kind NodeError whose message wraps the underlying cause,
exactly as in the and_then closure at src/ethereum/mod.rs lines 135-149. -/
def convert_stage {E : Type} (web3_block : Option Web3Block) : Except Error (Block E) :=
  match web3_block with
  | some web3_block =>
    match into_block web3_block with
    | .ok block => .ok block
    | .error error =>
      .error ⟨ErrorKind.NodeError, "Could not convert block from web3: " ++ error.message⟩
  | none => .error ⟨ErrorKind.NodeError, "No block found"⟩

/-- The stream of conversion results: each fetched item is converted
independently of the others. -/
def convert_blocks {E : Type} (web3_blocks : List (Option Web3Block)) :
    List (Except Error (Block E)) :=
  web3_blocks.map convert_stage

/-- C5 counterexample: for the fetched block wb_no_hash, the conversion
failure item produced by the pipeline has kind NodeError — not a distinct
InvalidBlock kind, contrary to the claim. -/
theorem convert_stage_kind_counterexample :
    convert_stage (E := Nat) (some wb_no_hash) =
      .error ⟨ErrorKind.NodeError, "Could not convert block from web3: " ++ "Block has no hash"⟩ ∧
      ErrorKind.NodeError ≠ ErrorKind.InvalidBlock :=
  ⟨rfl, by decide⟩

/-- C5 amended: a conversion failure yields an error item whose kind is
NodeError — the same kind used for transport failures — with a message
wrapping the converter's own error (which itself carries the InvalidBlock
kind, per into_block); the failure does not stop the sequence: every later
fetched item is still converted. -/
theorem convert_stage_failure_wrapped {E : Type} (wb : Web3Block) (e : Error)
    (h : into_block (E := E) wb = .error e) (rest : List (Option Web3Block)) :
    convert_blocks (E := E) (some wb :: rest) =
      .error ⟨ErrorKind.NodeError, "Could not convert block from web3: " ++ e.message⟩ ::
        convert_blocks (E := E) rest := by
  simp [convert_blocks, convert_stage, h]

theorem convert_stage_failure_wrapped_witness :
    convert_blocks (E := Nat) (some wb_no_hash :: [some wb_full]) =
      .error ⟨ErrorKind.NodeError, "Could not convert block from web3: " ++ "Block has no hash"⟩ ::
        convert_blocks (E := Nat) [some wb_full] :=
  convert_stage_failure_wrapped wb_no_hash
    ⟨ErrorKind.InvalidBlock, "Block has no hash"⟩ rfl [some wb_full]

/-- The low 64 bits of a 128-bit quantity, as U128::low_u64. -/
def low_u64 (n : U128) : Nat :=
  n % 2 ^ 64

/-- A log filter as produced by FilterBuilder: an optional from-block and
to-block bound (default none). -/
structure Filter where
  from_block : Option Nat
  to_block : Option Nat
  deriving DecidableEq

/-- The log filter built by stream_blocks for one converted block
(src/ethereum/mod.rs lines 153-166): the block's 128-bit number is narrowed
to the node's 64-bit width via low_u64, and both bounds of the filter are
set to that number. -/
def build_log_filter {E : Type} (block : Block E) : Filter :=
  let block_number : Nat := low_u64 block.number
  { from_block := some block_number
    to_block := some block_number }

/-- C6: for every converted block, the log filter requests exactly that
block's number as both the from-block and the to-block bound, the number
being the low 64 bits (remainder modulo 2 ^ 64) of the block's wide 128-bit
number. -/
theorem build_log_filter_scoped {E : Type} (block : Block E) :
    (build_log_filter block).from_block = some (block.number % 2 ^ 64) ∧
      (build_log_filter block).to_block = (build_log_filter block).from_block := by
  simp [build_log_filter, low_u64]

/-- The for-loop over fetched logs in stream_blocks (src/ethereum/mod.rs
lines 177-192): each log, in order, is passed to the event handler's
log_into_event; a produced event is pushed onto the block's events, an
absent event is silently skipped, and a decode error produces a warning and
skips that log.  The handler's decode-error type is owned by the external
event module and is modelled as an opaque string.  Returns the list of logs
passed to the handler in call order, the warnings emitted, and the final
block. -/
def log_into_event_loop {L E : Type} (log_into_event : L → Except String (Option E)) :
    Block E → List L → List L × List String × Block E
  | block, [] => ([], [], block)
  | block, log :: logs =>
    match log_into_event log with
    | .ok (some event) =>
      let rest := log_into_event_loop log_into_event
        { block with events := block.events ++ [event] } logs
      (log :: rest.1, rest.2.1, rest.2.2)
    | .ok none =>
      let rest := log_into_event_loop log_into_event block logs
      (log :: rest.1, rest.2.1, rest.2.2)
    | .error error =>
      let rest := log_into_event_loop log_into_event block logs
      (log :: rest.1,
        ("Was not able to convert a log into an event: " ++ error) :: rest.2.1,
        rest.2.2)

/-- The events the handler reports as present, in log order: the reference
sequence the pipeline's event population is compared against. -/
def present_events {L E : Type} (log_into_event : L → Except String (Option E))
    (logs : List L) : List E :=
  logs.filterMap fun log =>
    match log_into_event log with
    | .ok (some event) => some event
    | .ok none => none
    | .error _ => none

theorem log_into_event_loop_calls {L E : Type}
    (log_into_event : L → Except String (Option E)) (block : Block E) (logs : List L) :
    (log_into_event_loop log_into_event block logs).1 = logs := by
  induction logs generalizing block with
  | nil => rfl
  | cons log logs ih =>
    cases h : log_into_event log with
    | ok o => cases o <;> simp [log_into_event_loop, h, ih]
    | error e => simp [log_into_event_loop, h, ih]

theorem log_into_event_loop_events {L E : Type}
    (log_into_event : L → Except String (Option E)) (block : Block E) (logs : List L) :
    (log_into_event_loop log_into_event block logs).2.2.events =
      block.events ++ present_events log_into_event logs := by
  induction logs generalizing block with
  | nil => simp [log_into_event_loop, present_events]
  | cons log logs ih =>
    cases h : log_into_event log with
    | ok o => cases o <;> simp [log_into_event_loop, present_events, h, ih]
    | error e => simp [log_into_event_loop, present_events, h, ih]

theorem length_present_events {L E : Type}
    (log_into_event : L → Except String (Option E)) (logs : List L) :
    (present_events log_into_event logs).length =
      logs.countP fun log =>
        match log_into_event log with
        | .ok (some _) => true
        | .ok none => false
        | .error _ => false := by
  induction logs with
  | nil => simp [present_events]
  | cons log logs ih =>
    simp only [present_events, List.filterMap_cons, List.countP_cons] at ih ⊢
    cases h : log_into_event log with
    | ok o => cases o <;> simp [h, ih]
    | error e => simp [h, ih]

theorem into_block_ok_events {E : Type} (wb : Web3Block) (b : Block E)
    (hconv : into_block (E := E) wb = .ok b) : b.events = [] := by
  cases hh : wb.hash with
  | none => simp [into_block, hh] at hconv
  | some h =>
    cases hn : wb.number with
    | none => simp [into_block, hh, hn] at hconv
    | some n =>
      simp [into_block, hh, hn] at hconv
      simp [← hconv]

/-- C3: for a block obtained from a successful conversion, the log loop
passes every fetched log to log_into_event in the order the logs were
returned; the block's final events are exactly the events the handler
reported present, in that same relative order (absent events are skipped
silently, decode errors are warned about and skipped, and the block is
always produced); in particular the events length equals the number of logs
for which the handler returned a present event. -/
theorem stream_blocks_events {L E : Type}
    (log_into_event : L → Except String (Option E)) (wb : Web3Block)
    (b : Block E) (logs : List L) (hconv : into_block (E := E) wb = .ok b) :
    (log_into_event_loop log_into_event b logs).1 = logs ∧
      (log_into_event_loop log_into_event b logs).2.2.events =
        present_events log_into_event logs ∧
      (log_into_event_loop log_into_event b logs).2.2.events.length =
        logs.countP (fun log =>
          match log_into_event log with
          | .ok (some _) => true
          | .ok none => false
          | .error _ => false) := by
  have hev := into_block_ok_events wb b hconv
  refine ⟨log_into_event_loop_calls log_into_event b logs, ?_, ?_⟩
  · rw [log_into_event_loop_events, hev]
    simp
  · rw [log_into_event_loop_events, hev]
    simp [length_present_events]

/-- A concrete event handler: log 1 decodes to event 10, log 2 matches
nothing, log 3 fails to decode. -/
def handler_example : Nat → Except String (Option Nat) :=
  fun log =>
    if log = 1 then .ok (some 10)
    else if log = 2 then .ok none
    else .error "unknown shape"

theorem stream_blocks_events_witness :
    (log_into_event_loop handler_example block_full [1, 2, 3]).2.2.events = [10] ∧
      (log_into_event_loop handler_example block_full [1, 2, 3]).2.2.events.length = 1 := by
  have h := stream_blocks_events handler_example wb_full block_full [1, 2, 3] rfl
  refine ⟨h.2.1.trans (by decide), h.2.2.trans (by decide)⟩

/-- The error-catching stage of the observer worker (the then-closure in
src/observer/mod.rs lines 81-86): an error item is logged and mapped to
none, a block item passes through as some. -/
def catch_item {E : Type} : Except Error (Block E) → Option (Block E) × List String
  | .ok block => (some block, [])
  | .error error => (none, ["Error when streaming blocks: " ++ error.message])

/-- The observer worker (src/observer/mod.rs lines 67-101), run over the
items the block stream yields, in order.  Each item goes through catch_item;
a surviving block is handed to block_function and a failure of
block_function is logged; the loop then continues with the next item.
Returns the blocks passed to block_function in call order together with all
log lines emitted, in order. -/
def worker {E : Type} (block_function : Block E → Except Error Unit) :
    List (Except Error (Block E)) → List (Block E) × List String
  | [] => ([], [])
  | item :: items =>
    let caught := catch_item item
    let step : List (Block E) × List String :=
      match caught.1 with
      | none => ([], caught.2)
      | some block =>
        match block_function block with
        | .ok _ => ([block], caught.2)
        | .error error =>
          ([block], caught.2 ++ ["There was an error when processing a block: " ++ error.message])
    let rest := worker block_function items
    (step.1 ++ rest.1, step.2 ++ rest.2)

/-- The log lines the worker is expected to emit for one stream item: the
stream error for an error item, the processing error when block_function
rejects the block, and nothing otherwise. -/
def item_logs {E : Type} (block_function : Block E → Except Error Unit) :
    Except Error (Block E) → List String
  | .error error => ["Error when streaming blocks: " ++ error.message]
  | .ok block =>
    match block_function block with
    | .ok _ => []
    | .error error => ["There was an error when processing a block: " ++ error.message]

/-- C4: the worker passes exactly the successful Block items to
block_function, in stream order; every error item, and every block on which
block_function fails, is logged (one line each, in stream order); and
processing a concatenation of items splits into processing each part — so a
failure on one item never prevents later items from being processed. -/
theorem worker_error_isolation {E : Type}
    (block_function : Block E → Except Error Unit)
    (items : List (Except Error (Block E))) :
    (worker block_function items).1 = items.filterMap Except.toOption ∧
      (worker block_function items).2 = (items.map (item_logs block_function)).flatten ∧
      ∀ xs ys : List (Except Error (Block E)),
        (worker block_function (xs ++ ys)).1 =
            (worker block_function xs).1 ++ (worker block_function ys).1 ∧
          (worker block_function (xs ++ ys)).2 =
            (worker block_function xs).2 ++ (worker block_function ys).2 := by
  have blocks : ∀ items : List (Except Error (Block E)),
      (worker block_function items).1 = items.filterMap Except.toOption := by
    intro items
    induction items with
    | nil => rfl
    | cons item items ih =>
      cases item with
      | ok block =>
        cases h : block_function block <;>
          simp [worker, catch_item, h, ih, Except.toOption]
      | error error => simp [worker, catch_item, ih, Except.toOption]
  have logs : ∀ items : List (Except Error (Block E)),
      (worker block_function items).2 = (items.map (item_logs block_function)).flatten := by
    intro items
    induction items with
    | nil => rfl
    | cons item items ih =>
      cases item with
      | ok block =>
        cases h : block_function block <;>
          simp [worker, catch_item, item_logs, h, ih]
      | error error => simp [worker, catch_item, item_logs, ih]
  refine ⟨blocks items, logs items, fun xs ys => ⟨?_, ?_⟩⟩
  · simp [blocks, List.filterMap_append]
  · simp [logs, List.flatten_append]

/-- The state of an Ethereum connection that the modelled operations read:
the validator address, the unlock password, the polling interval, and the
ordered reactor registry.  The reactor type is owned by the external reactor
module and is opaque here, hence a type parameter. -/
structure Ethereum (ρ : Type) where
  validator : H160
  password : String
  polling_interval : Nat
  reactors : List ρ

/-- register_reactor (src/ethereum/mod.rs lines 284-286): pushes the reactor
onto the end of the registry. -/
def Ethereum.register_reactor {ρ : Type} (self : Ethereum ρ) (reactor : ρ) : Ethereum ρ :=
  { self with reactors := self.reactors ++ [reactor] }

/-- notify_reactors (src/ethereum/mod.rs lines 294-298): iterates the
registry in order, calling react on each reactor with the given block.
The observable outcome is the sequence of react calls made, each pairing the
reactor with the block it received. -/
def Ethereum.notify_reactors {ρ E : Type} (self : Ethereum ρ) (block : Block E) :
    List (ρ × Block E) :=
  self.reactors.map fun reactor => (reactor, block)

/-- C7: after any sequence of register_reactor calls, the registry is the
initial registry extended by the registered reactors in call order (append
only, no deduplication — a reactor registered twice appears twice), and
notify_reactors invokes each registered reactor exactly once, in
registration order, with that exact block. -/
theorem notify_reactors_registration_order {ρ E : Type}
    (init : Ethereum ρ) (regs : List ρ) (block : Block E) :
    (regs.foldl Ethereum.register_reactor init).reactors = init.reactors ++ regs ∧
      (regs.foldl Ethereum.register_reactor init).notify_reactors block =
        (init.reactors ++ regs).map fun reactor => (reactor, block) := by
  have hreg : ∀ (regs : List ρ) (s : Ethereum ρ),
      (regs.foldl Ethereum.register_reactor s).reactors = s.reactors ++ regs := by
    intro regs
    induction regs with
    | nil => intro s; simp
    | cons r regs ih =>
      intro s
      simp [List.foldl_cons, ih, Ethereum.register_reactor]
  exact ⟨hreg regs init, by simp [Ethereum.notify_reactors, hreg regs init]⟩

/-- An oracle for the node's personal/eth endpoints used by sign: the
outcome of an unlock_account request and of a sign request, keyed by the
arguments the connection sends.  Transport-level failures are opaque
strings. -/
structure Node where
  unlock_account_result : H160 → String → Option Nat → Except String Bool
  sign_result : H160 → Bytes → Except String Signature

/-- A call made to the node, in the order the connection issues them. -/
inductive NodeCall where
  | unlockAccount (address : H160) (password : String) (duration : Option Nat)
  | signData (address : H160) (data : Bytes)
  deriving DecidableEq

/-- unlock_account (src/ethereum/mod.rs lines 266-276): asks the node to
unlock the validator with the stored password for the given duration (none
meaning a single transaction), wrapping a failure as a NodeError.  Returns
the node calls made together with the result. -/
def Ethereum.unlock_account {ρ : Type} (self : Ethereum ρ) (node : Node)
    (duration : Option Nat) : List NodeCall × Except Error Bool :=
  ([NodeCall.unlockAccount self.validator self.password duration],
    match node.unlock_account_result self.validator self.password duration with
    | .ok unlocked => .ok unlocked
    | .error error =>
      .error ⟨ErrorKind.NodeError, "Was not able to unlock account: " ++ error⟩)

/-- sign (src/ethereum/mod.rs lines 219-231): unlocks the validator account
for a single transaction (duration none) and then asks the node to sign the
data with the validator address; either failure is wrapped as a NodeError.
Returns the node calls made together with the result. -/
def Ethereum.sign {ρ : Type} (self : Ethereum ρ) (node : Node) (data : Bytes) :
    List NodeCall × Except Error Signature :=
  let unlocked := self.unlock_account node none
  match unlocked.2 with
  | .error error => (unlocked.1, .error error)
  | .ok _ =>
    (unlocked.1 ++ [NodeCall.signData self.validator data],
      match node.sign_result self.validator data with
      | .ok signature => .ok signature
      | .error error =>
        .error ⟨ErrorKind.NodeError, "Was not able to sign data: " ++ error⟩)

/-- C8: for every input data, sign first issues an unlock of the validator
account with duration none, and issues the signing request — over that data,
for the validator address — only when the unlock succeeded; any error it
returns carries the NodeError kind, and a signature is returned exactly when
both the unlock and the signing succeeded. -/
theorem sign_unlocks_then_signs {ρ : Type} (self : Ethereum ρ) (node : Node)
    (data : Bytes) :
    ((self.sign node data).1 =
        if (node.unlock_account_result self.validator self.password none).isOk then
          [NodeCall.unlockAccount self.validator self.password none,
            NodeCall.signData self.validator data]
        else [NodeCall.unlockAccount self.validator self.password none]) ∧
      (∀ e : Error, (self.sign node data).2 = .error e → e.kind = ErrorKind.NodeError) ∧
      ((self.sign node data).2.isOk ↔
        (node.unlock_account_result self.validator self.password none).isOk ∧
          (node.sign_result self.validator data).isOk) := by
  cases hu : node.unlock_account_result self.validator self.password none with
  | error e =>
    refine ⟨?_, ?_, ?_⟩ <;>
      simp [Ethereum.sign, Ethereum.unlock_account, hu, Except.isOk, Except.toBool]
  | ok u =>
    cases hs : node.sign_result self.validator data with
    | error e =>
      refine ⟨?_, ?_, ?_⟩ <;>
        simp [Ethereum.sign, Ethereum.unlock_account, hu, hs, Except.isOk, Except.toBool]
    | ok s =>
      refine ⟨?_, ?_, ?_⟩ <;>
        simp [Ethereum.sign, Ethereum.unlock_account, hu, hs, Except.isOk, Except.toBool]

/-- A concrete connection state with no reactors registered. -/
def eth_example : Ethereum Nat :=
  { validator := 5
    password := "pw"
    polling_interval := 1
    reactors := [] }

/-- A concrete node on which unlocking the account fails. -/
def node_unlock_fails : Node :=
  { unlock_account_result := fun _ _ _ => .error "locked"
    sign_result := fun _ _ => .ok 7 }

theorem sign_unlocks_then_signs_witness :
    (eth_example.sign node_unlock_fails [1, 2]).1 =
        [NodeCall.unlockAccount 5 "pw" none] ∧
      Error.kind ⟨ErrorKind.NodeError, "Was not able to unlock account: " ++ "locked"⟩ =
        ErrorKind.NodeError ∧
      ¬(eth_example.sign node_unlock_fails [1, 2]).2.isOk := by
  have h := sign_unlocks_then_signs eth_example node_unlock_fails [1, 2]
  refine ⟨?_, h.2.1 _ rfl, ?_⟩
  · rw [h.1]
    simp [node_unlock_fails, eth_example, Except.isOk, Except.toBool]
  · rw [h.2.2]
    simp [node_unlock_fails, eth_example, Except.isOk, Except.toBool]

/-- C9: a successful conversion sets the Block's uncles_hash from the raw
block's parent_hash field, and both its receipts_root and its mix_data from
the raw block's transactions_root field; consequently each of those Block
fields agrees with the raw block's own corresponding field (uncles_hash,
receipts_root, mix_hash) only when that field happens to coincide with the
copied source field. -/
theorem into_block_mismatched_copies {E : Type} (wb : Web3Block) (h : H256)
    (n : U128) (hh : wb.hash = some h) (hn : wb.number = some n) :
    (into_block (E := E) wb).map
        (fun b => (b.uncles_hash, b.receipts_root, b.mix_data)) =
      .ok (wb.parent_hash, wb.transactions_root, wb.transactions_root) ∧
      ∀ b : Block E, into_block (E := E) wb = .ok b →
        (b.uncles_hash = wb.uncles_hash ↔ wb.uncles_hash = wb.parent_hash) ∧
          (b.receipts_root = wb.receipts_root ↔ wb.receipts_root = wb.transactions_root) ∧
          (b.mix_data = wb.mix_hash ↔ wb.mix_hash = wb.transactions_root) := by
  constructor
  · simp [into_block, hh, hn, Except.map]
  · intro b hb
    simp [into_block, hh, hn] at hb
    simp [← hb, eq_comm]

theorem into_block_mismatched_copies_witness :
    (into_block (E := Nat) wb_full).map
        (fun b => (b.uncles_hash, b.receipts_root, b.mix_data)) =
      .ok (2, 6, 6) ∧
      (block_full.uncles_hash ≠ wb_full.uncles_hash ∧
        block_full.receipts_root ≠ wb_full.receipts_root ∧
        block_full.mix_data ≠ wb_full.mix_hash) := by
  have h := into_block_mismatched_copies (E := Nat) wb_full 1 8 rfl rfl
  have hb := h.2 block_full rfl
  refine ⟨h.1.trans rfl, ?_, ?_, ?_⟩
  · rw [ne_eq, hb.1]
    decide
  · rw [ne_eq, hb.2.1]
    decide
  · rw [ne_eq, hb.2.2]
    decide

/-- C10: a successful conversion sets the Block's nonce from the raw block's
difficulty field, so it agrees with the raw block's own nonce field only
when nonce and difficulty happen to coincide. -/
theorem into_block_nonce_from_difficulty {E : Type} (wb : Web3Block) (h : H256)
    (n : U128) (hh : wb.hash = some h) (hn : wb.number = some n) :
    (into_block (E := E) wb).map Block.nonce = .ok wb.difficulty ∧
      ∀ b : Block E, into_block (E := E) wb = .ok b →
        (b.nonce = wb.nonce ↔ wb.nonce = wb.difficulty) := by
  constructor
  · simp [into_block, hh, hn, Except.map]
  · intro b hb
    simp [into_block, hh, hn] at hb
    simp [← hb, eq_comm]

theorem into_block_nonce_from_difficulty_witness :
    (into_block (E := Nat) wb_full).map Block.nonce = .ok 13 ∧
      block_full.nonce ≠ wb_full.nonce := by
  have h := into_block_nonce_from_difficulty (E := Nat) wb_full 1 8 rfl rfl
  refine ⟨h.1.trans rfl, ?_⟩
  rw [ne_eq, h.2 block_full rfl]
  decide

end Mosaic
